import Mathlib

/-!
Verification of the Poco `IPAddress` component (`Net/src/IPAddress.cpp`).

The wrapper class `Poco::Net::IPAddress` is embedded faithfully from
`IPAddress.cpp`.  The implementation classes `IPv4AddressImpl` /
`IPv6AddressImpl` (file `IPAddressImpl.cpp`) are not part of the reviewed
sources; the definitions that stand in for them are modelled from the
specification and carry a doc comment starting with `Modelled from the spec:`.

Conventions of the embedding:
* a raw address payload is a `List Nat` of byte values (each `< 256` for
  well-formed addresses);
* the IPv6 scope id (a C++ `UInt32`) is a `Nat`;
* C++ exceptions become `Except PocoError`;
* the mutating members (`mask`, `tryParse`'s out-parameter) are modelled by
  returning the new value of the mutated object.
-/

namespace PocoNet

instance {ε α : Type} [DecidableEq ε] [DecidableEq α] :
    DecidableEq (Except ε α) := fun a b =>
  match a, b with
  | .error e, .error f =>
      if h : e = f then isTrue (by rw [h])
      else isFalse (fun hh => by cases hh; exact h rfl)
  | .error _, .ok _ => isFalse (fun hh => by cases hh)
  | .ok _, .error _ => isFalse (fun hh => by cases hh)
  | .ok x, .ok y =>
      if h : x = y then isTrue (by rw [h])
      else isFalse (fun hh => by cases hh; exact h rfl)

/-- The exceptions thrown by `IPAddress.cpp`, by C++ exception class. -/
inductive PocoError where
  /-- `Poco::InvalidArgumentException` (invalid family, length or prefix). -/
  | invalidArgument : PocoError
  /-- `Poco::Net::InvalidAddressException`, carrying the offending string. -/
  | invalidAddress : String → PocoError
  /-- A failed read on the `Poco::BinaryReader` (stream exhausted). -/
  | readFailure : PocoError
deriving DecidableEq, Repr

/-- `IPAddress::Family`. -/
inductive Family where
  | IPv4 : Family
  | IPv6 : Family
deriving DecidableEq, Repr

/-- The value of a `Poco::Net::IPAddress`: either an `IPv4AddressImpl`
(4 payload bytes) or an `IPv6AddressImpl` (16 payload bytes and a scope). -/
inductive IPAddress where
  | v4 : List Nat → IPAddress
  | v6 : List Nat → Nat → IPAddress
deriving DecidableEq, Repr

namespace IPAddress

/-- `IPAddress::family()`. -/
def family : IPAddress → Family
  | .v4 _ => .IPv4
  | .v6 _ _ => .IPv6

/-- `IPAddress::length()`: `sizeof(struct in_addr)` = 4 for IPv4,
`sizeof(struct in6_addr)` = 16 for IPv6. -/
def length : IPAddress → Nat
  | .v4 _ => 4
  | .v6 _ _ => 16

/-- `IPAddress::addr()`: the raw payload bytes. -/
def addrBytes : IPAddress → List Nat
  | .v4 b => b
  | .v6 b _ => b

/-- `IPAddress::scope()`: 0 for IPv4 (`IPv4AddressImpl::scope()` returns 0). -/
def scope : IPAddress → Nat
  | .v4 _ => 0
  | .v6 _ s => s

/-- Well-formedness: the stored payload has exactly the length the family
prescribes (the C++ impl classes store fixed-size arrays). -/
def WF (a : IPAddress) : Prop := a.addrBytes.length = a.length

instance (a : IPAddress) : Decidable a.WF := by
  unfold WF; infer_instance

/-- `IPAddress::IPAddress(const void* addr, poco_socklen_t length)`:
4 bytes give an IPv4 address, 16 an IPv6 address with scope 0, any other
length throws `InvalidArgumentException`.  Reading `length` bytes from the
pointer is modelled by `List.take length`. -/
def fromRaw (addr : List Nat) (length : Nat) : Except PocoError IPAddress :=
  if length = 4 then .ok (.v4 (addr.take 4))
  else if length = 16 then .ok (.v6 (addr.take 16) 0)
  else .error .invalidArgument

/-- `IPAddress::IPAddress(const void* addr, poco_socklen_t length,
Poco::UInt32 scope)`: as `fromRaw`, but a 16-byte payload keeps the given
scope (the scope argument is ignored for 4-byte payloads). -/
def fromRawScope (addr : List Nat) (length : Nat) (scope : Nat) :
    Except PocoError IPAddress :=
  if length = 4 then .ok (.v4 (addr.take 4))
  else if length = 16 then .ok (.v6 (addr.take 16) scope)
  else .error .invalidArgument

end IPAddress

/-- Byte-wise complement (bytes are 8-bit, so the complement of `b` is
`255 - b`). -/
def byteNot (b : Nat) : Nat := 255 - b

/-- Modelled from the spec: the impl-level binary bitwise operators
(`IPv4AddressImpl`/`IPv6AddressImpl` `operator&,|,^` in the missing
`IPAddressImpl.cpp`) operate byte-wise across the raw payload. -/
def bytesZip (op : Nat → Nat → Nat) (a b : List Nat) : List Nat :=
  List.zipWith op a b

/-- Modelled from the spec: the impl-level IPv6 binary operators preserve the
left-hand operand's scope. -/
def ipv6Bin (op : Nat → Nat → Nat) (a : List Nat × Nat) (b : List Nat × Nat) :
    List Nat × Nat :=
  (bytesZip op a.1 b.1, a.2)

namespace IPAddress

/-- `IPAddress::operator&` (`IPAddress.cpp` lines 395-417).  Note that the
IPv6 branch of the source constructs the result as
`IPAddress(r.addr(), r.scope(), sizeof(struct in6_addr))`, i.e. it passes the
scope where the `(addr, length, scope)` constructor expects the length and
vice versa; the embedding reproduces that argument order. -/
def opAnd (self other : IPAddress) : Except PocoError IPAddress :=
  if self.family = other.family then
    match self, other with
    | .v4 t, .v4 o => fromRaw (bytesZip Nat.land t o) 4
    | .v6 ta ts, .v6 oa os =>
        let r := ipv6Bin Nat.land (ta, ts) (oa, os)
        fromRawScope r.1 r.2 16
    | _, _ => .error .invalidArgument
  else .error .invalidArgument

/-- `IPAddress::operator|` (lines 420-442), same swapped argument order in the
IPv6 branch as `operator&`. -/
def opOr (self other : IPAddress) : Except PocoError IPAddress :=
  if self.family = other.family then
    match self, other with
    | .v4 t, .v4 o => fromRaw (bytesZip Nat.lor t o) 4
    | .v6 ta ts, .v6 oa os =>
        let r := ipv6Bin Nat.lor (ta, ts) (oa, os)
        fromRawScope r.1 r.2 16
    | _, _ => .error .invalidArgument
  else .error .invalidArgument

/-- `IPAddress::operator^` (lines 445-467), same swapped argument order in the
IPv6 branch as `operator&`. -/
def opXor (self other : IPAddress) : Except PocoError IPAddress :=
  if self.family = other.family then
    match self, other with
    | .v4 t, .v4 o => fromRaw (bytesZip Nat.xor t o) 4
    | .v6 ta ts, .v6 oa os =>
        let r := ipv6Bin Nat.xor (ta, ts) (oa, os)
        fromRawScope r.1 r.2 16
    | _, _ => .error .invalidArgument
  else .error .invalidArgument

/-- `IPAddress::operator~` (lines 470-486).  Unlike the binary operators, the
IPv6 branch here passes the constructor arguments in the correct order
`IPAddress(r.addr(), sizeof(struct in6_addr), r.scope())`. -/
def opNot (self : IPAddress) : Except PocoError IPAddress :=
  match self with
  | .v4 t => fromRaw (t.map byteNot) 4
  | .v6 ta ts => fromRawScope (ta.map byteNot) 16 ts

end IPAddress

/-- The 16-byte payload of `::1` (IPv6 loopback). -/
def loop6 : List Nat := [0, 0, 0, 0, 0, 0, 0, 0, 0, 0, 0, 0, 0, 0, 0, 1]

/-- C1: the binary bitwise operators on two IPv6 addresses with scope 0
(the common case) all throw `InvalidArgumentException` instead of returning
the byte-wise result: the source passes `(r.addr(), r.scope(),
sizeof(struct in6_addr))` to the `(addr, length, scope)` raw constructor, so
the scope (0) is used as the byte length and the length check fails.  The
unary `operator~`, whose argument order is correct, works as specified. -/
theorem ipv6_binary_bitwise_ops_throw_at_scope_zero :
    IPAddress.opAnd (.v6 loop6 0) (.v6 loop6 0) = .error .invalidArgument
    ∧ IPAddress.opOr (.v6 loop6 0) (.v6 loop6 0) = .error .invalidArgument
    ∧ IPAddress.opXor (.v6 loop6 0) (.v6 loop6 0) = .error .invalidArgument
    ∧ IPAddress.opNot (.v6 loop6 0)
        = .ok (.v6 [255, 255, 255, 255, 255, 255, 255, 255,
                    255, 255, 255, 255, 255, 255, 255, 254] 0) := by
  refine ⟨rfl, rfl, rfl, ?_⟩
  decide

/-- C8: each binary bitwise operator applied to an IPv4 and an IPv6 address,
in either order, fails with the family-mismatch error and returns no
address. -/
theorem binary_bitwise_family_mismatch (b4 : List Nat) (b6 : List Nat)
    (s : Nat) :
    IPAddress.opAnd (.v4 b4) (.v6 b6 s) = .error .invalidArgument
    ∧ IPAddress.opAnd (.v6 b6 s) (.v4 b4) = .error .invalidArgument
    ∧ IPAddress.opOr (.v4 b4) (.v6 b6 s) = .error .invalidArgument
    ∧ IPAddress.opOr (.v6 b6 s) (.v4 b4) = .error .invalidArgument
    ∧ IPAddress.opXor (.v4 b4) (.v6 b6 s) = .error .invalidArgument
    ∧ IPAddress.opXor (.v6 b6 s) (.v4 b4) = .error .invalidArgument := by
  refine ⟨?_, ?_, ?_, ?_, ?_, ?_⟩ <;>
    simp [IPAddress.opAnd, IPAddress.opOr, IPAddress.opXor, IPAddress.family]

/-! ## Ordering and equality (`operator==`, lines 339-352; `operator<`,
lines 361-374) -/

/-- `std::memcmp` over byte lists, as used with two equal-length payloads:
the first differing byte decides; positions past the end of either list are
not examined. -/
def cmpBytes : List Nat → List Nat → Ordering
  | [], _ => .eq
  | _ :: _, [] => .eq
  | a :: as, b :: bs =>
      if a < b then .lt else if b < a then .gt else cmpBytes as bs

theorem cmpBytes_swap (as bs : List Nat) :
    cmpBytes bs as = (cmpBytes as bs).swap := by
  induction as generalizing bs with
  | nil => cases bs <;> rfl
  | cons a as ih =>
      cases bs with
      | nil => rfl
      | cons b bs =>
          by_cases h1 : a < b
          · have h2 : ¬ b < a := by omega
            simp [cmpBytes, h1, h2, Ordering.swap]
          · by_cases h2 : b < a
            · simp [cmpBytes, h1, h2, Ordering.swap]
            · simp [cmpBytes, h1, h2, ih bs]

theorem cmpBytes_lt_trans {as bs cs : List Nat}
    (h1 : cmpBytes as bs = .lt) (h2 : cmpBytes bs cs = .lt) :
    cmpBytes as cs = .lt := by
  induction as generalizing bs cs with
  | nil => simp [cmpBytes] at h1
  | cons a as ih =>
      cases bs with
      | nil => simp [cmpBytes] at h1
      | cons b bs =>
          cases cs with
          | nil => simp [cmpBytes] at h2
          | cons c cs =>
              simp only [cmpBytes] at h1 h2 ⊢
              by_cases hab : a < b
              · by_cases hbc : b < c
                · rw [if_pos (by omega)]
                · rw [if_neg hbc] at h2
                  by_cases hcb : c < b
                  · rw [if_pos hcb] at h2; exact absurd h2 (by decide)
                  · rw [if_pos (by omega)]
              · rw [if_neg hab] at h1
                by_cases hba : b < a
                · rw [if_pos hba] at h1; exact absurd h1 (by decide)
                · rw [if_neg hba] at h1
                  by_cases hbc : b < c
                  · rw [if_pos (by omega)]
                  · rw [if_neg hbc] at h2
                    by_cases hcb : c < b
                    · rw [if_pos hcb] at h2; exact absurd h2 (by decide)
                    · rw [if_neg hcb] at h2
                      rw [if_neg (show ¬ a < c by omega),
                          if_neg (show ¬ c < a by omega)]
                      exact ih h1 h2

theorem cmpBytes_single_lt (x y : Nat) : cmpBytes [x] [y] = .lt ↔ x < y := by
  by_cases h : x < y
  · simp [cmpBytes, h]
  · by_cases h2 : y < x <;> simp [cmpBytes, h, h2]

theorem cmpBytes_single_eq (x y : Nat) : cmpBytes [x] [y] = .eq ↔ x = y := by
  by_cases h : x < y
  · simp [cmpBytes, h]; omega
  · by_cases h2 : y < x <;> simp [cmpBytes, h, h2] <;> omega

namespace IPAddress

/-- `IPAddress::operator==` (lines 339-352): lengths must match, then scopes
must match, then `memcmp` over the payload must return 0. -/
def beqIP (a b : IPAddress) : Bool :=
  if a.length = b.length then
    if a.scope = b.scope then
      decide (cmpBytes a.addrBytes b.addrBytes = Ordering.eq)
    else false
  else false

/-- `IPAddress::operator<` (lines 361-374): shorter length first; with equal
lengths, differing scopes compare by scope, otherwise `memcmp` decides. -/
def ltIP (a b : IPAddress) : Bool :=
  if a.length = b.length then
    if a.scope = b.scope then
      decide (cmpBytes a.addrBytes b.addrBytes = Ordering.lt)
    else decide (a.scope < b.scope)
  else decide (a.length < b.length)

/-- The three-way comparator underlying `beqIP` and `ltIP`. -/
def cmpIP (a b : IPAddress) : Ordering :=
  if a.length = b.length then
    if a.scope = b.scope then cmpBytes a.addrBytes b.addrBytes
    else cmpBytes [a.scope] [b.scope]
  else cmpBytes [a.length] [b.length]

theorem ltIP_eq_cmp (a b : IPAddress) :
    ltIP a b = decide (cmpIP a b = Ordering.lt) := by
  unfold ltIP cmpIP
  by_cases hl : a.length = b.length
  · by_cases hs : a.scope = b.scope
    · rw [if_pos hl, if_pos hl, if_pos hs, if_pos hs]
    · rw [if_pos hl, if_pos hl, if_neg hs, if_neg hs]
      simp [cmpBytes_single_lt]
  · rw [if_neg hl, if_neg hl]
    simp [cmpBytes_single_lt]

theorem beqIP_eq_cmp (a b : IPAddress) :
    beqIP a b = decide (cmpIP a b = Ordering.eq) := by
  unfold beqIP cmpIP
  by_cases hl : a.length = b.length
  · by_cases hs : a.scope = b.scope
    · rw [if_pos hl, if_pos hl, if_pos hs, if_pos hs]
    · rw [if_pos hl, if_pos hl, if_neg hs, if_neg hs]
      simp [cmpBytes_single_eq, hs]
  · rw [if_neg hl, if_neg hl]
    simp [cmpBytes_single_eq, hl]

theorem cmpIP_swap (a b : IPAddress) : cmpIP b a = (cmpIP a b).swap := by
  unfold cmpIP
  by_cases hl : a.length = b.length
  · rw [if_pos hl.symm, if_pos hl]
    by_cases hs : a.scope = b.scope
    · rw [if_pos hs.symm, if_pos hs, cmpBytes_swap]
    · rw [if_neg (Ne.symm hs), if_neg hs, cmpBytes_swap]
  · rw [if_neg (Ne.symm hl), if_neg hl, cmpBytes_swap]

theorem cmpIP_lt_trans {a b c : IPAddress}
    (h1 : cmpIP a b = .lt) (h2 : cmpIP b c = .lt) : cmpIP a c = .lt := by
  unfold cmpIP at h1 h2 ⊢
  by_cases hab : a.length = b.length
  · by_cases hbc : b.length = c.length
    · rw [if_pos hab] at h1
      rw [if_pos hbc] at h2
      rw [if_pos (hab.trans hbc)]
      by_cases hsab : a.scope = b.scope
      · by_cases hsbc : b.scope = c.scope
        · rw [if_pos hsab] at h1
          rw [if_pos hsbc] at h2
          rw [if_pos (hsab.trans hsbc)]
          exact cmpBytes_lt_trans h1 h2
        · rw [if_neg hsbc] at h2
          have hbc' : b.scope < c.scope := (cmpBytes_single_lt _ _).mp h2
          rw [if_neg (by omega)]
          exact (cmpBytes_single_lt _ _).mpr (by omega)
      · rw [if_neg hsab] at h1
        have hab' : a.scope < b.scope := (cmpBytes_single_lt _ _).mp h1
        by_cases hsbc : b.scope = c.scope
        · rw [if_neg (by omega)]
          exact (cmpBytes_single_lt _ _).mpr (by omega)
        · rw [if_neg hsbc] at h2
          have hbc' : b.scope < c.scope := (cmpBytes_single_lt _ _).mp h2
          rw [if_neg (by omega)]
          exact (cmpBytes_single_lt _ _).mpr (by omega)
    · rw [if_neg hbc] at h2
      have hbc' : b.length < c.length := (cmpBytes_single_lt _ _).mp h2
      rw [if_neg (by omega)]
      exact (cmpBytes_single_lt _ _).mpr (by omega)
  · rw [if_neg hab] at h1
    have hab' : a.length < b.length := (cmpBytes_single_lt _ _).mp h1
    by_cases hbc : b.length = c.length
    · rw [if_neg (by omega)]
      exact (cmpBytes_single_lt _ _).mpr (by omega)
    · rw [if_neg hbc] at h2
      have hbc' : b.length < c.length := (cmpBytes_single_lt _ _).mp h2
      rw [if_neg (by omega)]
      exact (cmpBytes_single_lt _ _).mpr (by omega)

end IPAddress

/-- C5: the comparison operators form a total order consistent with equality:
for all addresses `a`, `b` exactly one of `a<b`, `a==b`, `a>b` (i.e. `b<a`)
holds, `<` is transitive, addresses of different byte lengths are never
equal, and with equal lengths the scope is compared numerically first and
then the raw bytes lexicographically (unsigned byte-wise `memcmp`). -/
theorem ordering_is_total_order (a b c : IPAddress) :
    ((IPAddress.ltIP a b = true ∧ IPAddress.beqIP a b = false
        ∧ IPAddress.ltIP b a = false)
      ∨ (IPAddress.ltIP a b = false ∧ IPAddress.beqIP a b = true
        ∧ IPAddress.ltIP b a = false)
      ∨ (IPAddress.ltIP a b = false ∧ IPAddress.beqIP a b = false
        ∧ IPAddress.ltIP b a = true))
    ∧ (IPAddress.ltIP a b = true → IPAddress.ltIP b c = true →
        IPAddress.ltIP a c = true)
    ∧ (a.length ≠ b.length → IPAddress.beqIP a b = false)
    ∧ (a.length = b.length → a.scope ≠ b.scope →
        IPAddress.beqIP a b = false
        ∧ (IPAddress.ltIP a b = true ↔ a.scope < b.scope))
    ∧ (a.length = b.length → a.scope = b.scope →
        (IPAddress.beqIP a b = true ↔ cmpBytes a.addrBytes b.addrBytes = .eq)
        ∧ (IPAddress.ltIP a b = true
            ↔ cmpBytes a.addrBytes b.addrBytes = .lt)) := by
  refine ⟨?_, ?_, ?_, ?_, ?_⟩
  · rcases h : IPAddress.cmpIP a b with _ | _ | _
    · exact Or.inl ⟨by simp [IPAddress.ltIP_eq_cmp, h],
        by simp [IPAddress.beqIP_eq_cmp, h],
        by simp [IPAddress.ltIP_eq_cmp, IPAddress.cmpIP_swap a b, h, Ordering.swap]⟩
    · exact Or.inr (Or.inl ⟨by simp [IPAddress.ltIP_eq_cmp, h],
        by simp [IPAddress.beqIP_eq_cmp, h],
        by simp [IPAddress.ltIP_eq_cmp, IPAddress.cmpIP_swap a b, h, Ordering.swap]⟩)
    · exact Or.inr (Or.inr ⟨by simp [IPAddress.ltIP_eq_cmp, h],
        by simp [IPAddress.beqIP_eq_cmp, h],
        by simp [IPAddress.ltIP_eq_cmp, IPAddress.cmpIP_swap a b, h, Ordering.swap]⟩)
  · intro h1 h2
    rw [IPAddress.ltIP_eq_cmp, decide_eq_true_eq] at h1 h2 ⊢
    exact IPAddress.cmpIP_lt_trans h1 h2
  · intro hl
    simp [IPAddress.beqIP, hl]
  · intro hl hs
    constructor
    · simp [IPAddress.beqIP, hl, hs]
    · simp [IPAddress.ltIP, hl, hs]
  · intro hl hs
    constructor
    · simp [IPAddress.beqIP, hl, hs]
    · simp [IPAddress.ltIP, hl, hs]

/-- Witness for `ordering_is_total_order` at concrete addresses. -/
theorem ordering_is_total_order_witness :
    IPAddress.ltIP (.v4 [10, 0, 0, 1]) (.v4 [10, 0, 0, 3]) = true
    ∧ IPAddress.beqIP (.v4 [1, 2, 3, 4]) (.v6 loop6 0) = false
    ∧ IPAddress.beqIP (.v6 loop6 1) (.v6 loop6 2) = false
    ∧ (IPAddress.beqIP (.v6 loop6 5) (.v6 loop6 5) = true
        ↔ cmpBytes loop6 loop6 = .eq) :=
  ⟨(ordering_is_total_order (.v4 [10, 0, 0, 1]) (.v4 [10, 0, 0, 2])
      (.v4 [10, 0, 0, 3])).2.1 (by decide) (by decide),
   (ordering_is_total_order (.v4 [1, 2, 3, 4]) (.v6 loop6 0)
      (.v4 [1, 2, 3, 4])).2.2.1 (by decide),
   ((ordering_is_total_order (.v6 loop6 1) (.v6 loop6 2)
      (.v6 loop6 1)).2.2.2.1 (by decide) (by decide)).1,
   ((ordering_is_total_order (.v6 loop6 5) (.v6 loop6 5)
      (.v6 loop6 5)).2.2.2.2 (by decide) (by decide)).1⟩

/-! ## Wire codec (lines 645-661) -/

/-- `operator<<(Poco::BinaryWriter&, const IPAddress&)` (lines 645-650): one
length byte, then the raw payload bytes verbatim. -/
def wireEncode (a : IPAddress) : List Nat := a.length :: a.addrBytes

/-- `operator>>(Poco::BinaryReader&, IPAddress&)` (lines 653-661): read one
length byte, read exactly that many payload bytes, rebuild through the
raw-bytes constructor `IPAddress(buf, length)`.  A read past the end of the
stream is modelled as `readFailure`; the decoded address is returned together
with the unread remainder of the stream. -/
def wireDecode (stream : List Nat) : Except PocoError (IPAddress × List Nat) :=
  match stream with
  | [] => .error .readFailure
  | len :: rest =>
      if rest.length < len then .error .readFailure
      else
        match IPAddress.fromRaw (rest.take len) len with
        | .ok a => .ok (a, rest.drop len)
        | .error e => .error e

/-- The scope erasure performed by the wire codec. -/
def IPAddress.scopeDropped : IPAddress → IPAddress
  | .v4 b => .v4 b
  | .v6 b _ => .v6 b 0

/-- C6: wire-decoding the wire-encoding of a (well-formed) address consumes
the whole stream and yields an address with the same family and the same raw
bytes, and with scope 0 even when the input is IPv6 with nonzero scope (the
scope is never transmitted). -/
theorem wire_round_trip (a : IPAddress) (h : a.WF) :
    wireDecode (wireEncode a) = .ok (a.scopeDropped, [])
    ∧ a.scopeDropped.family = a.family
    ∧ a.scopeDropped.addrBytes = a.addrBytes
    ∧ a.scopeDropped.scope = 0 := by
  cases a with
  | v4 b =>
      have hb : b.length = 4 := h
      have ht : b.take 4 = b := by rw [← hb, List.take_length]
      have hd : b.drop 4 = [] := by rw [← hb, List.drop_length]
      refine ⟨?_, rfl, rfl, rfl⟩
      simp only [wireEncode, wireDecode, IPAddress.length, IPAddress.addrBytes]
      rw [if_neg (by omega)]
      simp only [IPAddress.fromRaw, if_pos rfl]
      rw [ht, ht, hd]
      rfl
  | v6 b s =>
      have hb : b.length = 16 := h
      have ht : b.take 16 = b := by rw [← hb, List.take_length]
      have hd : b.drop 16 = [] := by rw [← hb, List.drop_length]
      refine ⟨?_, rfl, rfl, rfl⟩
      simp only [wireEncode, wireDecode, IPAddress.length, IPAddress.addrBytes]
      rw [if_neg (by omega)]
      simp only [IPAddress.fromRaw, if_neg (by omega : ¬ (16 : Nat) = 4),
        if_pos rfl]
      rw [ht, ht, hd]
      rfl

/-- Witness for `wire_round_trip`: an IPv6 address with scope 7 decodes back
with scope 0. -/
theorem wire_round_trip_witness :
    wireDecode (wireEncode (.v6 loop6 7)) = .ok (.v6 loop6 0, []) :=
  (wire_round_trip (.v6 loop6 7) (by decide)).1

/-- C9: wire decoding reads the length byte, then exactly that many payload
bytes (the remainder of the stream is untouched), and reconstructs the
address through the raw-bytes constructor; a length byte that is neither 4
nor 16 fails with the invalid-length error. -/
theorem wire_decode_by_length (len : Nat) (rest : List Nat)
    (h : len ≤ rest.length) :
    (len = 4 →
      wireDecode (len :: rest) = .ok (.v4 (rest.take 4), rest.drop 4))
    ∧ (len = 16 →
      wireDecode (len :: rest) = .ok (.v6 (rest.take 16) 0, rest.drop 16))
    ∧ (len ≠ 4 → len ≠ 16 →
      wireDecode (len :: rest) = .error .invalidArgument) := by
  refine ⟨?_, ?_, ?_⟩
  · rintro rfl
    simp only [wireDecode]
    rw [if_neg (by omega)]
    simp [IPAddress.fromRaw, List.take_take]
  · rintro rfl
    simp only [wireDecode]
    rw [if_neg (by omega)]
    simp [IPAddress.fromRaw, List.take_take]
  · intro h4 h16
    simp only [wireDecode]
    rw [if_neg (by omega)]
    simp [IPAddress.fromRaw, h4, h16]

/-- Witness for `wire_decode_by_length`: length byte 5 is rejected, length
byte 4 consumes exactly four payload bytes. -/
theorem wire_decode_by_length_witness :
    wireDecode [5, 1, 2, 3, 4, 5] = .error .invalidArgument
    ∧ wireDecode [4, 10, 0, 0, 1] = .ok (.v4 [10, 0, 0, 1], []) :=
  ⟨(wire_decode_by_length 5 [1, 2, 3, 4, 5] (by decide)).2.2 (by decide)
      (by decide),
   ((wire_decode_by_length 4 [10, 0, 0, 1] (by decide)).1 rfl).trans
      (by decide)⟩

/-! ## Masking (`IPAddress::mask`, lines 539-549) -/

/-- Modelled from the spec: `IPAddressImpl::mask(maskImpl, setImpl)`
(`IPAddressImpl.cpp` is not among the reviewed sources) updates the
receiver's payload byte-wise to `(this AND mask) OR (set AND NOT mask)`. -/
def maskBytes : List Nat → List Nat → List Nat → List Nat
  | x :: xs, m :: ms, s :: ss =>
      Nat.lor (Nat.land x m) (Nat.land s (byteNot m)) :: maskBytes xs ms ss
  | _, _, _ => []

namespace IPAddress

/-- `IPAddress::mask(const IPAddress& mask, const IPAddress& set)` (lines
546-549) is a mutating void member; `mask2` returns the value of `*this`
after the call (family and scope are untouched, the payload is rewritten). -/
def mask2 (self maskA setA : IPAddress) : IPAddress :=
  match self with
  | .v4 x => .v4 (maskBytes x maskA.addrBytes setA.addrBytes)
  | .v6 x s => .v6 (maskBytes x maskA.addrBytes setA.addrBytes) s

/-- `IPAddress::mask(const IPAddress& mask)` (lines 539-543): calls the
two-argument form with a default-constructed `IPAddress` (the IPv4 wildcard
`0.0.0.0`) as the set address. -/
def mask1 (self maskA : IPAddress) : IPAddress :=
  self.mask2 maskA (.v4 [0, 0, 0, 0])

end IPAddress

/-- C4 counterexample: `mask` does not leave the receiver unchanged - masking
`255.255.255.255` with `255.0.0.0` turns the receiver into `255.0.0.0`. -/
theorem mask_mutates_receiver :
    IPAddress.mask1 (.v4 [255, 255, 255, 255]) (.v4 [255, 0, 0, 0])
      = .v4 [255, 0, 0, 0]
    ∧ IPAddress.v4 [255, 0, 0, 0] ≠ .v4 [255, 255, 255, 255] :=
  ⟨by decide, by decide⟩

theorem maskBytes_zero_set (x m : List Nat) (k : Nat) (hx : x.length ≤ k)
    (hm : m.length ≤ k) :
    maskBytes x m (List.replicate k 0) = List.zipWith Nat.land x m := by
  induction x generalizing m k with
  | nil => rfl
  | cons x xs ih =>
      cases m with
      | nil => rfl
      | cons m ms =>
          cases k with
          | zero => simp at hx
          | succ k =>
              simp only [List.replicate, maskBytes, List.zipWith]
              congr 1
              · show (x &&& m) ||| (0 &&& byteNot m) = x &&& m
                simp
              · exact ih ms k (by simpa using hx) (by simpa using hm)

/-- C4 (amended): the bitwise operators and parsers return new addresses, but
`mask` rewrites the receiver in place: the one-argument `mask(maskAddr)`
replaces the receiver's payload with `this AND maskAddr` (the
default-constructed set address contributes nothing), while the mask argument
itself is only read, never modified.  Stated for IPv4 receivers. -/
theorem mask_one_arg_is_and (x m : List Nat) (hx : x.length = 4)
    (hm : m.length = 4) :
    IPAddress.mask1 (.v4 x) (.v4 m) = .v4 (List.zipWith Nat.land x m) := by
  have hrep : ([0, 0, 0, 0] : List Nat) = List.replicate 4 0 := rfl
  simp only [IPAddress.mask1, IPAddress.mask2, IPAddress.addrBytes, hrep]
  rw [maskBytes_zero_set x m 4 (by omega) (by omega)]

/-- Witness for `mask_one_arg_is_and` at a concrete host and netmask. -/
theorem mask_one_arg_is_and_witness :
    IPAddress.mask1 (.v4 [10, 20, 30, 40]) (.v4 [255, 255, 0, 0])
      = .v4 [10, 20, 0, 0] :=
  (mask_one_arg_is_and [10, 20, 30, 40] [255, 255, 0, 0] (by decide)
    (by decide)).trans (by decide)

/-! ## Netmask construction and prefix length -/

/-- Modelled from the spec: `IPv4AddressImpl(unsigned prefix)` and
`IPv6AddressImpl(unsigned prefix)` (missing `IPAddressImpl.cpp`) build a
netmask payload of `t` bytes whose leading `n` bits are 1 and whose remaining
bits are 0. -/
def prefixBytes : Nat → Nat → List Nat
  | _, 0 => []
  | n, t + 1 =>
      (if 8 ≤ n then 255 else 256 - 2 ^ (8 - n)) :: prefixBytes (n - 8) t

/-- Modelled from the spec: the number of leading 1-bits of an 8-bit value. -/
def byteLeadingOnes (b : Nat) : Nat :=
  if b.testBit 7 = false then 0
  else if b.testBit 6 = false then 1
  else if b.testBit 5 = false then 2
  else if b.testBit 4 = false then 3
  else if b.testBit 3 = false then 4
  else if b.testBit 2 = false then 5
  else if b.testBit 1 = false then 6
  else if b.testBit 0 = false then 7
  else 8

/-- Modelled from the spec: `IPAddressImpl::prefixLength()` counts the
leading 1-bits across the raw payload. -/
def prefixLengthBytes : List Nat → Nat
  | [] => 0
  | b :: rest =>
      if b = 255 then 8 + prefixLengthBytes rest else byteLeadingOnes b

namespace IPAddress

/-- `IPAddress::IPAddress(unsigned prefix, Family family)` (lines 156-175):
netmask construction, rejecting prefixes over 32 (IPv4) or 128 (IPv6) with
`InvalidArgumentException`. -/
def fromPrefixLen (n : Nat) (fam : Family) : Except PocoError IPAddress :=
  match fam with
  | .IPv4 =>
      if n ≤ 32 then .ok (.v4 (prefixBytes n 4))
      else .error .invalidArgument
  | .IPv6 =>
      if n ≤ 128 then .ok (.v6 (prefixBytes n 16) 0)
      else .error .invalidArgument

/-- `IPAddress::prefixLength()` (lines 507-510). -/
def prefixLength (a : IPAddress) : Nat := prefixLengthBytes a.addrBytes

end IPAddress

/-- C7: for every `n ≤ 32`, `fromPrefix(n, IPv4)` succeeds and the built
netmask reports prefix length `n`; prefixes over 32 (IPv4) or over 128 (IPv6)
are rejected with the invalid-prefix error. -/
theorem fromPrefixLen_spec :
    (∀ n, n ≤ 32 → ∃ a, IPAddress.fromPrefixLen n .IPv4 = .ok a
        ∧ a.prefixLength = n)
    ∧ (∀ n, 32 < n →
        IPAddress.fromPrefixLen n .IPv4 = .error .invalidArgument)
    ∧ (∀ n, 128 < n →
        IPAddress.fromPrefixLen n .IPv6 = .error .invalidArgument) := by
  refine ⟨?_, ?_, ?_⟩
  · have hall : ∀ n, n < 33 → prefixLengthBytes (prefixBytes n 4) = n := by
      decide
    intro n hn
    refine ⟨.v4 (prefixBytes n 4), ?_, ?_⟩
    · simp [IPAddress.fromPrefixLen, hn]
    · simpa [IPAddress.prefixLength, IPAddress.addrBytes] using
        hall n (by omega)
  · intro n hn
    simp [IPAddress.fromPrefixLen, Nat.not_le.mpr hn]
  · intro n hn
    simp [IPAddress.fromPrefixLen, Nat.not_le.mpr hn]

/-- Witness for `fromPrefixLen_spec`: prefix 24 builds `255.255.255.0`-style
masks, 33 and 129 are rejected. -/
theorem fromPrefixLen_spec_witness :
    (∃ a, IPAddress.fromPrefixLen 24 .IPv4 = .ok a ∧ a.prefixLength = 24)
    ∧ IPAddress.fromPrefixLen 33 .IPv4 = .error .invalidArgument
    ∧ IPAddress.fromPrefixLen 129 .IPv6 = .error .invalidArgument :=
  ⟨fromPrefixLen_spec.1 24 (by decide),
   fromPrefixLen_spec.2.1 33 (by decide),
   fromPrefixLen_spec.2.2 129 (by decide)⟩

/-! ## Parsing (`IPAddress(const std::string&)`, lines 73-106;
`IPAddress(const std::string&, Family)`, lines 109-126; `tryParse`,
lines 519-536) -/

/-- The whitespace characters removed by `Poco::trim` (space and the ASCII
control characters 9-13). -/
def isSpaceChar (c : Char) : Bool :=
  decide (c.toNat = 32 ∨ (9 ≤ c.toNat ∧ c.toNat ≤ 13))

/-- `Poco::trim`: remove leading and trailing whitespace. -/
def trimChars (l : List Char) : List Char :=
  ((l.dropWhile isSpaceChar).reverse.dropWhile isSpaceChar).reverse

theorem dropWhile_eq_self_of_all (p : Char → Bool) (l : List Char)
    (h : ∀ c ∈ l, p c = false) : l.dropWhile p = l := by
  cases l with
  | nil => rfl
  | cons a as => simp [List.dropWhile, h a (by simp)]

theorem trimChars_of_no_space (l : List Char)
    (h : ∀ c ∈ l, isSpaceChar c = false) : trimChars l = l := by
  unfold trimChars
  rw [dropWhile_eq_self_of_all _ _ h,
    dropWhile_eq_self_of_all _ _ (fun c hc => h c (List.mem_reverse.mp hc)),
    List.reverse_reverse]

/-- Decimal digit. -/
def isDigitChar (c : Char) : Bool := decide (48 ≤ c.toNat ∧ c.toNat ≤ 57)

/-- Hexadecimal digit. -/
def isHexChar (c : Char) : Bool :=
  isDigitChar c || decide (97 ≤ c.toNat ∧ c.toNat ≤ 102)
    || decide (65 ≤ c.toNat ∧ c.toNat ≤ 70)

/-- Value of a decimal digit. -/
def digitVal (c : Char) : Nat := c.toNat - 48

/-- Value of a hexadecimal digit. -/
def hexVal (c : Char) : Nat :=
  if isDigitChar c then digitVal c
  else if decide (97 ≤ c.toNat ∧ c.toNat ≤ 102) then c.toNat - 97 + 10
  else c.toNat - 65 + 10

/-- Split a character list at every occurrence of `sep`; the separators are
dropped, `n` separators give `n + 1` groups. -/
def splitSep (sep : Char) : List Char → List (List Char)
  | [] => [[]]
  | c :: cs =>
      if c = sep then [] :: splitSep sep cs
      else
        match splitSep sep cs with
        | g :: gs => (c :: g) :: gs
        | [] => [[c]]

/-- The characters admitted by the dotted-quad grammar (digits and `.`,
code point 46). -/
def isV4Char (c : Char) : Bool := isDigitChar c || decide (c.toNat = 46)

/-- Value of a decimal octet group. -/
def octetVal (g : List Char) : Nat := g.foldl (fun a c => a * 10 + digitVal c) 0

/-- A valid decimal octet group: non-empty, all digits, value at most 255. -/
def isOctet (g : List Char) : Bool :=
  !g.isEmpty && g.all isDigitChar && decide (octetVal g ≤ 255)

/-- Modelled from the spec: the strict IPv4 dotted-quad grammar of
`IPv4AddressImpl::parse` (the impl sources are not under review) - exactly
four non-empty decimal octet groups separated by dots, each valued 0..255;
only digits and dots may occur, in particular no surrounding or embedded
whitespace. -/
def parseDottedQuad (l : List Char) : Option (List Nat) :=
  if l.all isV4Char then
    match splitSep '.' l with
    | [a, b, c, d] =>
        if isOctet a && isOctet b && isOctet c && isOctet d then
          some [octetVal a, octetVal b, octetVal c, octetVal d]
        else none
    | _ => none
  else none

/-- The characters admitted by the IPv6 grammar (hex digits, `:`, the `.` of
a dotted-quad suffix and the `%` zone introducer). -/
def isV6Char (c : Char) : Bool :=
  isHexChar c || decide (c.toNat = 58) || decide (c.toNat = 46)
    || decide (c.toNat = 37)

/-- Split at the first `%`: address part and optional zone part. -/
def splitPercent : List Char → List Char × Option (List Char)
  | [] => ([], none)
  | c :: cs =>
      if c = '%' then ([], some cs)
      else
        let r := splitPercent cs
        (c :: r.1, r.2)

/-- Value of a hex group. -/
def hextetVal (g : List Char) : Nat := g.foldl (fun a c => a * 16 + hexVal c) 0

/-- A valid hextet group: 1-4 hex digits. -/
def isHextet (g : List Char) : Bool :=
  !g.isEmpty && decide (g.length ≤ 4) && g.all isHexChar

/-- The two payload bytes of a hextet. -/
def hextetBytes (g : List Char) : List Nat :=
  [hextetVal g / 256, hextetVal g % 256]

/-- Strip the leading empty-group pair produced by a leading `::` down to a
single marker group; a single leading `:` is malformed. -/
def stripLeadEmpty : List (List Char) → Option (List (List Char))
  | [] :: [] :: rest => some ([] :: rest)
  | [] :: _ => none
  | gs => some gs

/-- Strip the trailing empty-group pair produced by a trailing `::`. -/
def stripTrailEmpty (gs : List (List Char)) : Option (List (List Char)) :=
  (stripLeadEmpty gs.reverse).map List.reverse

/-- Split the group list at the compression marker (an empty group): the
groups before it and, when a marker exists, the groups after it; a second
marker is malformed. -/
def splitMarker :
    List (List Char) → Option (List (List Char) × Option (List (List Char)))
  | [] => some ([], none)
  | [] :: rest => if [] ∈ rest then none else some ([], some rest)
  | g :: rest =>
      match splitMarker rest with
      | some (pre, m) => some (g :: pre, m)
      | none => none

/-- Turn a group list into payload bytes: every group must be a hextet (two
bytes); with `v4Last` set, a final group containing a dot may instead be a
dotted quad (four bytes - the IPv4-mapped/compatible suffix). -/
def groupsToBytes : List (List Char) → Bool → Option (List Nat)
  | [], _ => some []
  | [g], v4Last =>
      if v4Last && g.contains '.' then parseDottedQuad g
      else if isHextet g then some (hextetBytes g)
      else none
  | g :: rest, v4Last =>
      if isHextet g then
        match groupsToBytes rest v4Last with
        | some bs => some (hextetBytes g ++ bs)
        | none => none
      else none

/-- Modelled from the spec: the address part of the IPv6 grammar -
colon-separated hextets, at most one `::` marker expanding to at least one
zero group, optional dotted-quad suffix in the last 32 bits. -/
def parseIPv6Core (main : List Char) : Option (List Nat) :=
  match stripLeadEmpty (splitSep ':' main) with
  | none => none
  | some gs1 =>
      match stripTrailEmpty gs1 with
      | none => none
      | some gs2 =>
          match splitMarker gs2 with
          | none => none
          | some (pre, none) =>
              match groupsToBytes pre true with
              | some bs => if bs.length = 16 then some bs else none
              | none => none
          | some (pre, some post) =>
              match groupsToBytes pre false, groupsToBytes post true with
              | some pb, some qb =>
                  if pb.length + qb.length ≤ 14 then
                    some (pb ++ List.replicate (16 - (pb.length + qb.length)) 0
                      ++ qb)
                  else none
              | _, _ => none

/-- A numeric zone suffix, parsed as the scope id. -/
def parseScopeDigits (zone : List Char) : Option Nat :=
  if !zone.isEmpty && zone.all isDigitChar then
    some (zone.foldl (fun a c => a * 10 + digitVal c) 0)
  else none

/-- Modelled from the spec: the full IPv6 grammar of
`IPv6AddressImpl::parse` - the address part, optionally followed by `%` and
a numeric zone parsed as the scope id; only hex digits, `:`, `.` and `%` may
occur (no whitespace). -/
def parseIPv6 (l : List Char) : Option (List Nat × Nat) :=
  if l.all isV6Char then
    match splitPercent l with
    | (main, none) =>
        match parseIPv6Core main with
        | some bs => some (bs, 0)
        | none => none
    | (main, some zone) =>
        match parseIPv6Core main, parseScopeDigits zone with
        | some bs, some sc => some (bs, sc)
        | _, _ => none
  else none

/-- The all-zero IPv4 payload, the value of a default `IPv4AddressImpl()`. -/
def zeros4 : List Nat := [0, 0, 0, 0]

/-- The all-zero IPv6 payload, the value of a default `IPv6AddressImpl()`. -/
def zeros16 : List Nat := List.replicate 16 0

/-- Modelled from the spec and the call sites in `IPAddress.cpp`:
`IPv4AddressImpl::parse` returns the parsed payload, or the default
`IPv4AddressImpl()` (all zeros) when the text is not a valid dotted quad -
the callers detect failure by comparing against the default impl, which is
why the text `"0.0.0.0"` needs special-casing. -/
def impl4parse (l : List Char) : List Nat :=
  match parseDottedQuad l with
  | some bs => bs
  | none => zeros4

/-- Modelled from the spec and the call sites: `IPv6AddressImpl::parse`
returns the parsed payload and scope, or the default `IPv6AddressImpl()`
(all zeros, scope 0) on failure. -/
def impl6parse (l : List Char) : List Nat × Nat :=
  match parseIPv6 l with
  | some p => p
  | none => (zeros16, 0)

/-- The character list of `"0.0.0.0"`. -/
def quadZeroChars : List Char := ['0', '.', '0', '.', '0', '.', '0']

/-- The character list of `"::"`. -/
def colonColonChars : List Char := [':', ':']

namespace IPAddress

/-- `IPAddress::IPAddress(const std::string& addr)` (lines 73-106) over the
character list of the input (`orig` is the original string kept for the
exception payload): the empty string or anything trimming to `"0.0.0.0"`
gives the IPv4 wildcard; then a successful IPv4 impl parse (detected by
comparing with the default impl) wins; then anything trimming to `"::"`
gives the IPv6 wildcard; then a successful IPv6 impl parse; otherwise
`InvalidAddressException`. -/
def parseChars (l : List Char) (orig : String) : Except PocoError IPAddress :=
  if l = [] ∨ trimChars l = quadZeroChars then .ok (.v4 zeros4)
  else if impl4parse l ≠ zeros4 then .ok (.v4 (impl4parse l))
  else if l = [] ∨ trimChars l = colonColonChars then .ok (.v6 zeros16 0)
  else if impl6parse l ≠ (zeros16, 0) then
    .ok (.v6 (impl6parse l).1 (impl6parse l).2)
  else .error (.invalidAddress orig)

/-- `IPAddress::parse` (lines 513-516), which just invokes the string
constructor. -/
def parse (s : String) : Except PocoError IPAddress := parseChars s.toList s

/-- `IPAddress::tryParse(const std::string&, IPAddress&)` (lines 519-536)
over the character list: `result` is the value of the out parameter before
the call; returned are the success flag and the value of the out parameter
after the call. -/
def tryParseChars (l : List Char) (result : IPAddress) : Bool × IPAddress :=
  if impl4parse l ≠ zeros4 ∨ trimChars l = quadZeroChars then
    (true, .v4 (impl4parse l))
  else if impl6parse l ≠ (zeros16, 0) then
    (true, .v6 (impl6parse l).1 (impl6parse l).2)
  else (false, result)

/-- `IPAddress::tryParse` on a string. -/
def tryParse (s : String) (result : IPAddress) : Bool × IPAddress :=
  tryParseChars s.toList result

/-- `IPAddress::IPAddress(const std::string& addr, Family family)` (lines
109-126): parse strictly under the requested family's grammar.  Note that
the source uses the impl parser's result without checking it against the
default impl, so no exception is ever raised for malformed text. -/
def parseWithFamily (s : String) (fam : Family) : Except PocoError IPAddress :=
  match fam with
  | .IPv4 => .ok (.v4 (impl4parse s.toList))
  | .IPv6 => .ok (.v6 (impl6parse s.toList).1 (impl6parse s.toList).2)

end IPAddress

theorem v4Char_not_space (c : Char) (h : isV4Char c = true) :
    isSpaceChar c = false := by
  simp only [isV4Char, isDigitChar, Bool.or_eq_true, decide_eq_true_eq] at h
  simp only [isSpaceChar, decide_eq_false_iff_not]
  omega

theorem v6Char_not_space (c : Char) (h : isV6Char c = true) :
    isSpaceChar c = false := by
  simp only [isV6Char, isHexChar, isDigitChar, Bool.or_eq_true,
    decide_eq_true_eq] at h
  simp only [isSpaceChar, decide_eq_false_iff_not]
  omega

theorem parseDottedQuad_trim {l : List Char} {bs : List Nat}
    (h : parseDottedQuad l = some bs) : trimChars l = l := by
  apply trimChars_of_no_space
  intro c hc
  apply v4Char_not_space
  unfold parseDottedQuad at h
  by_cases hall : l.all isV4Char = true
  · exact List.all_eq_true.mp hall c hc
  · rw [if_neg hall] at h; cases h

theorem parseIPv6_trim {l : List Char} {p : List Nat × Nat}
    (h : parseIPv6 l = some p) : trimChars l = l := by
  apply trimChars_of_no_space
  intro c hc
  apply v6Char_not_space
  unfold parseIPv6 at h
  by_cases hall : l.all isV6Char = true
  · exact List.all_eq_true.mp hall c hc
  · rw [if_neg hall] at h; cases h

theorem impl4parse_ne_sentinel {l : List Char} (h : impl4parse l ≠ zeros4) :
    parseDottedQuad l = some (impl4parse l) ∧ trimChars l = l := by
  cases hp : parseDottedQuad l with
  | none => exact absurd (by unfold impl4parse; rw [hp]) h
  | some bs =>
      exact ⟨by unfold impl4parse; rw [hp], parseDottedQuad_trim hp⟩

theorem impl6parse_ne_sentinel {l : List Char}
    (h : impl6parse l ≠ (zeros16, 0)) :
    parseIPv6 l = some (impl6parse l) ∧ trimChars l = l := by
  cases hp : parseIPv6 l with
  | none => exact absurd (by unfold impl6parse; rw [hp]) h
  | some p =>
      exact ⟨by unfold impl6parse; rw [hp], parseIPv6_trim hp⟩

theorem parseDottedQuad_nil : parseDottedQuad [] = none := by decide

theorem parseDottedQuad_quadZero :
    parseDottedQuad quadZeroChars = some zeros4 := by decide

theorem parseIPv6_nil : parseIPv6 [] = none := by decide

theorem parseIPv6_quadZero : parseIPv6 quadZeroChars = none := by decide

theorem parseIPv6_colonColon :
    parseIPv6 colonColonChars = some (zeros16, 0) := by decide

example : parseDottedQuad "192.168.1.1".toList = some [192, 168, 1, 1] := by
  decide

example : parseIPv6 "::1".toList
    = some ([0, 0, 0, 0, 0, 0, 0, 0, 0, 0, 0, 0, 0, 0, 0, 1], 0) := by decide

example : parseIPv6 "fe80::1%5".toList
    = some ([254, 128, 0, 0, 0, 0, 0, 0, 0, 0, 0, 0, 0, 0, 0, 1], 5) := by
  decide

example : parseIPv6 "::ffff:10.0.0.1".toList
    = some ([0, 0, 0, 0, 0, 0, 0, 0, 0, 0, 255, 255, 10, 0, 0, 1], 0) := by
  decide

example : parseIPv6 "1:2:3:4:5:6:7:8".toList
    = some ([0, 1, 0, 2, 0, 3, 0, 4, 0, 5, 0, 6, 0, 7, 0, 8], 0) := by decide

example : parseDottedQuad "256.1.1.1".toList = none := by decide

example : parseDottedQuad " 1.2.3.4".toList = none := by decide

example : parseIPv6 "1::2::3".toList = none := by decide

example : parseIPv6 ":1:2:3:4:5:6:7".toList = none := by decide

example : parseIPv6 "not-an-ip".toList = none := by decide

theorem tryParseChars_vs_parseChars (l : List Char) (orig : String)
    (r : IPAddress) :
    ((IPAddress.tryParseChars l r).1 = true →
        IPAddress.parseChars l orig = .ok (IPAddress.tryParseChars l r).2)
    ∧ ((IPAddress.tryParseChars l r).1 = false →
        IPAddress.parseChars l orig = .error (.invalidAddress orig)
          ∨ l = [] ∨ trimChars l = colonColonChars)
    ∧ (IPAddress.parseChars l orig = .error (.invalidAddress orig) →
        (IPAddress.tryParseChars l r).1 = false) := by
  unfold IPAddress.tryParseChars IPAddress.parseChars
  by_cases hB : impl4parse l ≠ zeros4
  · obtain ⟨hp4, htr⟩ := impl4parse_ne_sentinel hB
    have hnil : l ≠ [] := by
      intro he
      rw [he, parseDottedQuad_nil] at hp4
      cases hp4
    have hnq : ¬ trimChars l = quadZeroChars := by
      intro he
      rw [htr] at he
      subst he
      rw [parseDottedQuad_quadZero] at hp4
      exact hB (Option.some.inj hp4).symm
    have hA : ¬ (l = [] ∨ trimChars l = quadZeroChars) := by
      rintro (he | he)
      · exact hnil he
      · exact hnq he
    rw [if_pos (show impl4parse l ≠ zeros4 ∨ trimChars l = quadZeroChars from
          Or.inl hB),
        if_neg hA, if_pos hB]
    exact ⟨fun _ => rfl, fun hf => by simp at hf, fun he => by simp at he⟩
  · have hB' : impl4parse l = zeros4 := not_not.mp hB
    by_cases hq : trimChars l = quadZeroChars
    · rw [if_pos (show impl4parse l ≠ zeros4 ∨ trimChars l = quadZeroChars from
            Or.inr hq),
          if_pos (show l = [] ∨ trimChars l = quadZeroChars from Or.inr hq),
          hB']
      exact ⟨fun _ => rfl, fun hf => by simp at hf, fun he => by simp at he⟩
    · have hC1 : ¬ (impl4parse l ≠ zeros4 ∨ trimChars l = quadZeroChars) := by
        rintro (h | h)
        · exact hB h
        · exact hq h
      rw [if_neg hC1]
      by_cases h2 : impl6parse l ≠ (zeros16, 0)
      · obtain ⟨hp6, htr6⟩ := impl6parse_ne_sentinel h2
        have hnil : l ≠ [] := by
          intro he
          rw [he, parseIPv6_nil] at hp6
          cases hp6
        have hcc : ¬ trimChars l = colonColonChars := by
          intro he
          rw [htr6] at he
          subst he
          rw [parseIPv6_colonColon] at hp6
          exact h2 (Option.some.inj hp6).symm
        have hA : ¬ (l = [] ∨ trimChars l = quadZeroChars) := by
          rintro (he | he)
          · exact hnil he
          · exact hq he
        have hC : ¬ (l = [] ∨ trimChars l = colonColonChars) := by
          rintro (he | he)
          · exact hnil he
          · exact hcc he
        rw [if_neg hA, if_neg hB, if_neg hC, if_pos h2, if_pos h2]
        exact ⟨fun _ => rfl, fun hf => by simp at hf, fun he => by simp at he⟩
      · rw [if_neg h2, if_neg h2]
        refine ⟨fun ht => by simp at ht, fun _ => ?_, fun _ => rfl⟩
        by_cases hnil : l = []
        · exact Or.inr (Or.inl hnil)
        · by_cases hcc : trimChars l = colonColonChars
          · exact Or.inr (Or.inr hcc)
          · left
            have hA : ¬ (l = [] ∨ trimChars l = quadZeroChars) := by
              rintro (he | he)
              · exact hnil he
              · exact hq he
            have hC : ¬ (l = [] ∨ trimChars l = colonColonChars) := by
              rintro (he | he)
              · exact hnil he
              · exact hcc he
            rw [if_neg hA, if_neg hB, if_neg hC]

/-- C2 counterexample: the claim that `tryParse(s)` succeeds exactly when
`parse(s)` succeeds, including on the empty string and `"::"`, is false:
`parse` accepts both (wildcards) while `tryParse` reports failure on both
(the impl parsers' success on `"::"` is indistinguishable from the failure
sentinel, and `tryParse` lacks the constructor's special cases). -/
theorem tryParse_parse_disagree_on_wildcards :
    (IPAddress.tryParse "" (.v4 zeros4)).1 = false
    ∧ IPAddress.parse "" = .ok (.v4 zeros4)
    ∧ (IPAddress.tryParse "::" (.v4 zeros4)).1 = false
    ∧ IPAddress.parse "::" = .ok (.v6 zeros16 0) := by
  refine ⟨?_, ?_, ?_, ?_⟩ <;> decide

/-- C2 (amended): `tryParse(s)` never fails; it returns success=true with
exactly the address `parse(s)` would construct whenever `tryParse` succeeds,
and when it returns success=false then `parse(s)` fails with
`InvalidAddressException` - except on the empty string and strings trimming
to `"::"`, where `parse` succeeds with a wildcard while `tryParse` returns
success=false; conversely whenever `parse(s)` fails, `tryParse` returns
success=false. -/
theorem tryParse_agrees_with_parse (s : String) (r : IPAddress) :
    ((IPAddress.tryParse s r).1 = true →
        IPAddress.parse s = .ok (IPAddress.tryParse s r).2)
    ∧ ((IPAddress.tryParse s r).1 = false →
        IPAddress.parse s = .error (.invalidAddress s)
          ∨ s.toList = [] ∨ trimChars s.toList = colonColonChars)
    ∧ (IPAddress.parse s = .error (.invalidAddress s) →
        (IPAddress.tryParse s r).1 = false) :=
  tryParseChars_vs_parseChars s.toList s r

/-- Witness for `tryParse_agrees_with_parse` at concrete inputs. -/
theorem tryParse_agrees_with_parse_witness :
    IPAddress.parse "10.0.0.1" = .ok (.v4 [10, 0, 0, 1])
    ∧ (IPAddress.parse "junk" = .error (.invalidAddress "junk")
        ∨ "junk".toList = [] ∨ trimChars "junk".toList = colonColonChars)
    ∧ (IPAddress.tryParse "junk" (.v4 zeros4)).1 = false :=
  ⟨((tryParse_agrees_with_parse "10.0.0.1" (.v4 zeros4)).1 (by decide)).trans
      (by decide),
   (tryParse_agrees_with_parse "junk" (.v4 zeros4)).2.1 (by decide),
   (tryParse_agrees_with_parse "junk" (.v4 zeros4)).2.2 (by decide)⟩

/-- C3 counterexample: parsing garbage under an explicitly requested family
does not fail with a format error - the constructor uses the impl parser's
result unchecked, so the family's all-zero wildcard address is returned. -/
theorem parse_with_family_garbage_returns_wildcard :
    IPAddress.parseWithFamily "not-an-ip" .IPv4 = .ok (.v4 zeros4)
    ∧ IPAddress.parseWithFamily "not-an-ip" .IPv6 = .ok (.v6 zeros16 0) :=
  ⟨by decide, by decide⟩

/-- C3 (amended): `parse(s, family)` parses strictly under the requested
family's grammar, ignoring the other family's grammar, and always returns an
address of the requested family; it never fails on malformed input - when
`s` is not a valid address of the family it returns the impl parser's
failure sentinel, the family's all-zero wildcard, instead of raising
`InvalidFormatError`. -/
theorem parse_with_family_strict (s : String) :
    (∀ bs, parseDottedQuad s.toList = some bs →
        IPAddress.parseWithFamily s .IPv4 = .ok (.v4 bs))
    ∧ (parseDottedQuad s.toList = none →
        IPAddress.parseWithFamily s .IPv4 = .ok (.v4 zeros4))
    ∧ (∀ bs sc, parseIPv6 s.toList = some (bs, sc) →
        IPAddress.parseWithFamily s .IPv6 = .ok (.v6 bs sc))
    ∧ (parseIPv6 s.toList = none →
        IPAddress.parseWithFamily s .IPv6 = .ok (.v6 zeros16 0))
    ∧ (∃ b, IPAddress.parseWithFamily s .IPv4 = .ok (.v4 b))
    ∧ (∃ b sc, IPAddress.parseWithFamily s .IPv6 = .ok (.v6 b sc)) := by
  refine ⟨?_, ?_, ?_, ?_, ⟨_, rfl⟩, ⟨_, _, rfl⟩⟩
  · intro bs h
    unfold IPAddress.parseWithFamily impl4parse
    simp only [h]
  · intro h
    unfold IPAddress.parseWithFamily impl4parse
    simp only [h]
  · intro bs sc h
    unfold IPAddress.parseWithFamily impl6parse
    simp only [h]
  · intro h
    unfold IPAddress.parseWithFamily impl6parse
    simp only [h]

/-- Witness for `parse_with_family_strict`: a dotted quad under IPv4, the
wildcard `"::"`-form under IPv6, and an IPv6 literal parsed under IPv4
(which ignores the IPv6 grammar and yields the IPv4 wildcard). -/
theorem parse_with_family_strict_witness :
    IPAddress.parseWithFamily "1.2.3.4" .IPv4 = .ok (.v4 [1, 2, 3, 4])
    ∧ IPAddress.parseWithFamily "::1" .IPv6
        = .ok (.v6 [0, 0, 0, 0, 0, 0, 0, 0, 0, 0, 0, 0, 0, 0, 0, 1] 0)
    ∧ IPAddress.parseWithFamily "::1" .IPv4 = .ok (.v4 zeros4) :=
  ⟨(parse_with_family_strict "1.2.3.4").1 [1, 2, 3, 4] (by decide),
   (parse_with_family_strict "::1").2.2.1
      [0, 0, 0, 0, 0, 0, 0, 0, 0, 0, 0, 0, 0, 0, 0, 1] 0 (by decide),
   (parse_with_family_strict "::1").2.1 (by decide)⟩

/-- C10: when `tryParse` returns success=false, the out parameter keeps
exactly its previous value (same family, bytes and scope); it is written
only on the success paths. -/
theorem tryParse_failure_keeps_result (s : String) (r : IPAddress)
    (h : (IPAddress.tryParse s r).1 = false) :
    (IPAddress.tryParse s r).2 = r := by
  unfold IPAddress.tryParse IPAddress.tryParseChars at h ⊢
  by_cases h1 :
      impl4parse s.toList ≠ zeros4 ∨ trimChars s.toList = quadZeroChars
  · rw [if_pos h1] at h
    simp at h
  · rw [if_neg h1] at h ⊢
    by_cases h2 : impl6parse s.toList ≠ (zeros16, 0)
    · rw [if_pos h2] at h
      simp at h
    · rw [if_neg h2]

/-- Witness for `tryParse_failure_keeps_result` at a concrete failing input
and a concrete previous value. -/
theorem tryParse_failure_keeps_result_witness :
    (IPAddress.tryParse "not-an-ip" (.v4 [9, 9, 9, 9])).2 = .v4 [9, 9, 9, 9] :=
  tryParse_failure_keeps_result "not-an-ip" (.v4 [9, 9, 9, 9]) (by decide)

end PocoNet
